import Mathlib

/-!
Shallow embedding of the sales-analytics pipeline in `main.py`: the
Cleaner / Feature Deriver (`load_data`), the Filter Engine and the
Aggregator (both inside `main`).  DataFrames are modelled as Lean lists
of rows; `NaN`/`NaT` cells are modelled as `Option.none`; pandas
timestamps are modelled as a civil-calendar record together with a
Julian-day-number function for date comparison, weekday names and day
differences.
-/

namespace Ventas

/-- A parsed pandas timestamp: civil year, month, day plus time of day.
Corresponds to a `datetime64` value produced by `pd.to_datetime`. -/
structure Timestamp where
  year : Int
  month : Int
  day : Int
  hour : Int
  minute : Int
deriving DecidableEq, Repr

/-- Julian day number of the civil date part of a timestamp (standard
Gregorian-calendar formula, using floor division).  `rataDie t % 7 = 0`
exactly on Mondays, which drives `dayName` below. -/
def rataDie (t : Timestamp) : Int :=
  let a : Int := Int.fdiv (14 - t.month) 12
  let y : Int := t.year + 4800 - a
  let m : Int := t.month + 12 * a - 3
  t.day + Int.fdiv (153 * m + 2) 5 + 365 * y + Int.fdiv y 4 -
    Int.fdiv y 100 + Int.fdiv y 400 - 32045

/-- Minutes since the Julian epoch; the linear timeline on which pandas
subtracts two timestamps. -/
def toMin (t : Timestamp) : Int :=
  rataDie t * 1440 + t.hour * 60 + t.minute

/-- The fixed weekday ordering `orden_dias` of `main.py` line 314. -/
def ordenDias : List String :=
  ["Monday", "Tuesday", "Wednesday", "Thursday", "Friday", "Saturday", "Sunday"]

/-- Model of `Series.dt.day_name()`: the English weekday name of the
date part of a timestamp. -/
def dayName (t : Timestamp) : String :=
  ordenDias.getD ((rataDie t).emod 7).toNat ""

/-- One raw CSV row as `pd.read_csv` delivers it.  A cell of the two
date columns is `none` when the CSV cell is empty (`NaN`), and otherwise
carries the result of parsing the cell string under the fixed format
(`some none` when the string does not parse, `some (some t)` when it
parses to the timestamp `t`). -/
structure RawRow where
  toma : Option String
  fechaCreacion : Option (Option Timestamp)
  fechaConversion : Option (Option Timestamp)
  producto : Option String
deriving DecidableEq, Repr

/-- A row after both `pd.to_datetime` conversions: each date cell is a
timestamp or `NaT` (`none`). -/
structure ParsedRow where
  toma : Option String
  fechaCreacion : Option Timestamp
  fechaConversion : Option Timestamp
  producto : Option String
deriving DecidableEq, Repr

/-- Model of `str.strip()`: remove leading and trailing whitespace. -/
def strip (s : String) : String :=
  ⟨((s.data.dropWhile Char.isWhitespace).reverse.dropWhile
    Char.isWhitespace).reverse⟩

/-- Lines 29-31 of `main.py`: drop the rows whose contact-channel cell
is `NaN`, then those where it is blank after stripping. -/
def dropBlankToma (rows : List RawRow) : List RawRow :=
  (rows.filter (fun r => r.toma.isSome)).filter
    (fun r => strip (r.toma.getD "") ≠ "")

/-- Line 34 of `main.py` converts the creation column with
`pd.to_datetime(..., format=..)` and no `errors` argument: the call
raises as soon as one (non-`NaN`) cell fails to parse.  This predicate
says the conversion of the whole column succeeds. -/
def creacionParses (rows : List RawRow) : Bool :=
  rows.all (fun r => r.fechaCreacion ≠ some (none : Option Timestamp))

/-- The two `pd.to_datetime` column conversions applied to one row
(lines 34-35): strict for the creation column (a `NaN` cell becomes
`NaT`), `errors=coerce` for the conversion column (a `NaN` cell or an
unparseable string becomes `NaT`). -/
def parseRow (r : RawRow) : ParsedRow :=
  { toma := r.toma
    fechaCreacion := r.fechaCreacion.bind id
    fechaConversion := r.fechaConversion.bind id
    producto := r.producto }

/-- Line 36 of `main.py`: keep the rows whose creation year is within
2018-2021.  A `NaT` creation date has a `NaN` year, both comparisons
are false, and the row is dropped. -/
def yearOk (p : ParsedRow) : Bool :=
  match p.fechaCreacion with
  | some t => decide (2018 ≤ t.year) && decide (t.year ≤ 2021)
  | none => false

/-- A canonical record: a cleaned row of the dataframe together with
the derived columns added by lines 40-48 of `main.py`. -/
structure CanonRow where
  toma : String
  fechaCreacion : Timestamp
  fechaConversion : Option Timestamp
  producto : Option String
  anoCreacion : Int
  mesCreacion : Int
  mesAnoCreacion : Int × Int
  convertido : Bool
  diasHastaConversion : Option Int
deriving DecidableEq, Repr

/-- Lines 40-48 of `main.py`: populate the derived columns.  After the
earlier filters the contact-channel cell and the creation date are
present, so this only repackages the row; `Dias_Hasta_Conversion` is
`(Fecha de Conversión - Fecha de Creación).dt.days.abs()`, that is the
absolute value of the floor of the signed difference in whole days,
`NaN` (here `none`) when the conversion date is `NaT`. -/
def finalize (p : ParsedRow) : Option CanonRow :=
  match p.toma, p.fechaCreacion with
  | some s, some t =>
      some { toma := s
             fechaCreacion := t
             fechaConversion := p.fechaConversion
             producto := p.producto
             anoCreacion := t.year
             mesCreacion := t.month
             mesAnoCreacion := (t.year, t.month)
             convertido := p.producto.isSome
             diasHastaConversion :=
               p.fechaConversion.map
                 (fun c => |Int.fdiv (toMin c - toMin t) 1440|) }
  | _, _ => none

/-- The whole of `load_data` (lines 23-56 of `main.py`) on an
already-read raw table: the `none` result is the `except` branch (the
function returns `None` after showing an error), taken exactly when the
strict creation-column conversion raises. -/
def load_data (rows : List RawRow) : Option (List CanonRow) :=
  let r1 := dropBlankToma rows
  if creacionParses r1 then
    some (((r1.map parseRow).filter yearOk).filterMap finalize)
  else
    none

/-- Model of `Timestamp.date()`: the date-only key used by the filter
comparison (`dt.date`, line 107-108) and the daily grouping, encoded as
the Julian day number. -/
def dateOnly (t : Timestamp) : Int :=
  rataDie t

/-- Lines 106-117 of `main.py`: the Filter Engine.  The date bounds are
date-only values (Julian day numbers); an empty selection list means no
filter for that family (`if toma_seleccionada:` truthiness).  Note that
line 117 filters the product selection against the `Toma de contacto`
column. -/
def applyFilters (df : List CanonRow) (fechaInicio fechaFin : Int)
    (tomaSel productoSel : List String) : List CanonRow :=
  let d1 := df.filter (fun r =>
    decide (fechaInicio ≤ dateOnly r.fechaCreacion) &&
    decide (dateOnly r.fechaCreacion ≤ fechaFin))
  let d2 := if tomaSel.isEmpty then d1
            else d1.filter (fun r => tomaSel.contains r.toma)
  let d3 := if productoSel.isEmpty then d2
            else d2.filter (fun r => productoSel.contains r.toma)
  d3

/-- Insertion step of a stable insertion sort: `a` is placed before the
first element it may precede under `le`. -/
def insertLe {α : Type} (le : α → α → Bool) (a : α) : List α → List α
  | [] => [a]
  | b :: l => if le a b then a :: b :: l else b :: insertLe le a l

/-- Insertion sort; models the ascending key ordering that
`groupby(..., sort=True)` gives its output and the
`sort_values(..., ascending=False)` calls.  The program's
`sort_values` uses the default quicksort, whose tie order pandas does
not guarantee, so the theorems below rely only on facts about the
sorted tables that are independent of tie order (membership and
permutation). -/
def sortLe {α : Type} (le : α → α → Bool) : List α → List α
  | [] => []
  | a :: l => insertLe le a (sortLe le l)

/-- Comparison used for the group keys: ascending string order. -/
def strLe (a b : String) : Bool :=
  decide (a ≤ b)

/-- One aggregation row: group key, `count` of rows in the group and
sum of the `Convertido` booleans over the group. -/
structure AggRow where
  key : String
  count : Nat
  ventas : Nat
deriving DecidableEq, Repr

/-- A `groupby(key).agg(count of rows, sum of Convertido)` on a string
column: pandas emits one row per distinct key, keys in ascending order. -/
def groupAgg (key : CanonRow → String) (rows : List CanonRow) : List AggRow :=
  (sortLe strLe ((rows.map key).dedup)).map (fun k =>
    { key := k
      count := (rows.filter (fun r => key r = k)).length
      ventas := ((rows.filter (fun r => key r = k)).filter
        (fun r => r.convertido)).length })

/-- Comparison used by `sort_values('Total_Ventas', ascending=False)`:
descending converted count. -/
def ventasDescLe (a b : AggRow) : Bool :=
  decide (b.ventas ≤ a.ventas)

/-- Lines 224-230 of `main.py`: the contact-channel aggregation, sorted
by descending converted count. -/
def contactoData (rows : List CanonRow) : List AggRow :=
  sortLe ventasDescLe (groupAgg (fun r => r.toma) rows)

/-- Lines 264-267 of `main.py`: the product groupby.  The input is
restricted to converted rows and grouped by the `Producto` column
(pandas drops `NaN` keys, and emits keys in ascending order);
`Cantidad_Ventas` is the row count of each group (stored in both
numeric fields here, since every grouped row is converted). -/
def productoGroups (rows : List CanonRow) : List AggRow :=
  (sortLe strLe
      (((rows.filter (fun r => r.convertido)).filterMap
        (fun r => r.producto)).dedup)).map
    (fun k =>
      { key := k
        count := ((rows.filter (fun r => r.convertido)).filter
          (fun r => r.producto = some k)).length
        ventas := ((rows.filter (fun r => r.convertido)).filter
          (fun r => r.producto = some k)).length })

/-- Line 268 of `main.py`: the product aggregation sorted by descending
`Cantidad_Ventas`. -/
def productoData (rows : List CanonRow) : List AggRow :=
  sortLe ventasDescLe (productoGroups rows)

/-- Lines 311-322 of `main.py`: the by-weekday aggregation.  The
`Dia_Semana` column is made an ordered categorical over `ordenDias`, so
the groupby emits one row per category in category order, including
empty categories. -/
def diaSemanaData (rows : List CanonRow) : List AggRow :=
  ordenDias.map (fun d =>
    { key := d
      count := (rows.filter (fun r => dayName r.fechaCreacion = d)).length
      ventas := ((rows.filter (fun r => dayName r.fechaCreacion = d)).filter
        (fun r => r.convertido)).length })

/-- The conversion-rate column added to each aggregation table:
`converted / count * 100`, a float that is `NaN` (modelled `none`) when
the group is empty (`0 / 0` in pandas), and never raises. -/
def tasa (a : AggRow) : Option Rat :=
  if a.count = 0 then none
  else some ((a.ventas : Rat) / (a.count : Rat) * 100)

/-- Line 124 of `main.py`: the headline record count. -/
def totalRegistros (rows : List CanonRow) : Nat :=
  rows.length

/-- Line 125 of `main.py`: the headline converted count
(`df_filtered['Convertido'].sum()`). -/
def totalVentas (rows : List CanonRow) : Nat :=
  (rows.filter (fun r => r.convertido)).length

/-- Line 126 of `main.py`: the headline conversion rate, which is the
numeric literal `0` when the filtered view is empty. -/
def tasaConversion (rows : List CanonRow) : Rat :=
  if 0 < rows.length then
    (totalVentas rows : Rat) / (totalRegistros rows : Rat) * 100
  else 0

/-- Modelled from the spec wording of the `days_to_conversion` clause,
for comparison with the code: the absolute value of the signed
difference, expressed in whole days (absolute value taken first). -/
def specDiasHastaConversion (r : CanonRow) : Option Int :=
  r.fechaConversion.map
    (fun c => Int.fdiv |toMin c - toMin r.fechaCreacion| 1440)

/-- Concrete canonical row used to instantiate theorems with
hypotheses on sample data. -/
def rowWeb : CanonRow :=
  ⟨"Web", ⟨2019, 1, 1, 10, 0⟩, none, none, 2019, 1, (2019, 1), false, none⟩

/-- Concrete raw row that survives cleaning. -/
def rawWeb : RawRow :=
  ⟨some "Web", some (some ⟨2019, 1, 1, 10, 0⟩), none, some "A"⟩

/-- Concrete raw row whose creation-timestamp string does not parse
under the fixed format. -/
def rawBad : RawRow :=
  ⟨some "Tel", some none, none, none⟩

/-- Concrete raw row whose conversion date precedes its creation
timestamp by ten hours. -/
def rawEarlyConv : RawRow :=
  ⟨some "Web", some (some ⟨2019, 1, 1, 10, 0⟩), some (some ⟨2019, 1, 1, 0, 0⟩), some "A"⟩

/-- The canonical row that cleaning `rawWeb` produces. -/
def rowWebA : CanonRow :=
  ⟨"Web", ⟨2019, 1, 1, 10, 0⟩, none, some "A", 2019, 1, (2019, 1), true, none⟩

/-- The canonical row that cleaning `rawEarlyConv` produces. -/
def rowEarlyConv : CanonRow :=
  ⟨"Web", ⟨2019, 1, 1, 10, 0⟩, some ⟨2019, 1, 1, 0, 0⟩, some "A",
    2019, 1, (2019, 1), true, some 1⟩

/-- Concrete raw row whose conversion-date string does not parse. -/
def rawBadConv : RawRow :=
  ⟨some "Web", some (some ⟨2019, 1, 1, 10, 0⟩), some none, some "A"⟩

theorem insertLe_perm {α : Type} (le : α → α → Bool) (a : α) :
    ∀ l : List α, (insertLe le a l).Perm (a :: l) := by
  intro l
  induction l with
  | nil => exact List.Perm.refl [a]
  | cons b t ih =>
      by_cases h : le a b = true
      · simp [insertLe, h]
      · simp only [insertLe, if_neg h]
        exact (ih.cons b).trans (List.Perm.swap a b t)

theorem sortLe_perm {α : Type} (le : α → α → Bool) :
    ∀ l : List α, (sortLe le l).Perm l := by
  intro l
  induction l with
  | nil => simp [sortLe]
  | cons a t ih =>
      exact (insertLe_perm le a (sortLe le t)).trans (ih.cons a)

theorem mem_sortLe {α : Type} {le : α → α → Bool} {x : α} {l : List α} :
    x ∈ sortLe le l ↔ x ∈ l :=
  (sortLe_perm le l).mem_iff

theorem mem_insertLe {α : Type} {le : α → α → Bool} {x a : α} {l : List α} :
    x ∈ insertLe le a l ↔ x = a ∨ x ∈ l := by
  rw [(insertLe_perm le a l).mem_iff, List.mem_cons]

theorem sum_map_zero {α : Type} (ks : List α) (g : α → Nat)
    (h : ∀ k ∈ ks, g k = 0) : (ks.map g).sum = 0 := by
  induction ks with
  | nil => simp
  | cons k t ih =>
      simp only [List.map_cons, List.sum_cons]
      rw [h k (List.mem_cons_self k t), ih (fun x hx => h x (List.mem_cons_of_mem k hx))]

theorem sum_map_indicator {α : Type} [DecidableEq α] (x : α) :
    ∀ ks : List α, ks.Nodup → x ∈ ks →
      (ks.map (fun k => if x = k then 1 else 0)).sum = 1 := by
  intro ks
  induction ks with
  | nil => intro _ h; exact absurd h (List.not_mem_nil x)
  | cons k t ih =>
      intro hnd hx
      rw [List.nodup_cons] at hnd
      simp only [List.map_cons, List.sum_cons]
      by_cases h : x = k
      · rw [if_pos h]
        have h0 : (t.map (fun j => if x = j then 1 else 0)).sum = 0 := by
          apply sum_map_zero
          intro j hj
          rw [if_neg]
          intro hxj
          exact hnd.1 (by rw [← hxj, h] at hj; exact hj)
        rw [h0]
      · rw [if_neg h, Nat.zero_add]
        exact ih hnd.2 ((List.mem_cons.mp hx).resolve_left h)

theorem sum_map_add {α : Type} (ks : List α) (g f : α → Nat) :
    (ks.map (fun k => g k + f k)).sum = (ks.map g).sum + (ks.map f).sum := by
  induction ks with
  | nil => simp
  | cons k t ih => simp only [List.map_cons, List.sum_cons, ih]; omega

theorem partition_sum {β α : Type} [DecidableEq α] (f : β → α) :
    ∀ (l : List β) (ks : List α), ks.Nodup → (∀ x ∈ l, f x ∈ ks) →
      (ks.map (fun k => (l.filter (fun x => f x = k)).length)).sum = l.length := by
  intro l
  induction l with
  | nil => intro ks _ _; simp
  | cons x t ih =>
      intro ks hnd hcov
      have step : ∀ k : α, ((x :: t).filter (fun y => f y = k)).length =
          (if f x = k then 1 else 0) + (t.filter (fun y => f y = k)).length := by
        intro k
        by_cases h : f x = k
        · simp [List.filter_cons, h, Nat.add_comm]
        · simp [List.filter_cons, h]
      calc (ks.map (fun k => ((x :: t).filter (fun y => f y = k)).length)).sum
          = (ks.map (fun k =>
              (if f x = k then 1 else 0) + (t.filter (fun y => f y = k)).length)).sum := by
            apply congrArg
            exact List.map_congr_left (fun k _ => step k)
        _ = (ks.map (fun k => if f x = k then 1 else 0)).sum +
              (ks.map (fun k => (t.filter (fun y => f y = k)).length)).sum :=
            sum_map_add ks _ _
        _ = 1 + t.length := by
            rw [sum_map_indicator (f x) ks hnd (hcov x (List.mem_cons_self x t)),
              ih ks hnd (fun y hy => hcov y (List.mem_cons_of_mem x hy))]
        _ = (x :: t).length := by simp [Nat.add_comm]

theorem mem_load_data {raws : List RawRow} {out : List CanonRow} {r : CanonRow}
    (h : load_data raws = some out) (hr : r ∈ out) :
    ∃ p ∈ (dropBlankToma raws).map parseRow, yearOk p = true ∧ finalize p = some r := by
  simp only [load_data] at h
  by_cases hc : creacionParses (dropBlankToma raws) = true
  · rw [if_pos hc, Option.some.injEq] at h
    subst h
    rcases List.mem_filterMap.mp hr with ⟨p, hp, hf⟩
    rcases List.mem_filter.mp hp with ⟨hpm, hpy⟩
    exact ⟨p, hpm, hpy, hf⟩
  · rw [if_neg hc] at h
    exact absurd h (Option.noConfusion)

theorem finalize_fields {p : ParsedRow} {r : CanonRow} (h : finalize p = some r) :
    r.convertido = r.producto.isSome ∧
    r.anoCreacion = r.fechaCreacion.year ∧
    r.diasHastaConversion = r.fechaConversion.map
      (fun c => |Int.fdiv (toMin c - toMin r.fechaCreacion) 1440|) ∧
    p.fechaCreacion = some r.fechaCreacion := by
  rcases p with ⟨pt, pc, pv, pp⟩
  cases pt with
  | none => simp [finalize] at h
  | some s =>
      cases pc with
      | none => simp [finalize] at h
      | some t =>
          simp only [finalize, Option.some.injEq] at h
          subst h
          simp

/-- C1: when the product selection is non-empty, the Filter Engine
evaluates the product predicate against the contact-channel column: a
row is in the fully filtered view iff it is in the view without the
product filter and its contact-channel value is one of the selected
product values. -/
theorem C1_product_filter_reads_contact_channel
    (df : List CanonRow) (fi ff : Int) (tomaSel productoSel : List String)
    (h : productoSel ≠ []) (r : CanonRow) :
    r ∈ applyFilters df fi ff tomaSel productoSel ↔
      (r ∈ applyFilters df fi ff tomaSel [] ∧ r.toma ∈ productoSel) := by
  have he : productoSel.isEmpty = false := by
    cases productoSel with
    | nil => exact absurd rfl h
    | cons a t => rfl
  simp [applyFilters, he, List.mem_filter]

/-- Witness for C1 at a one-row dataframe and the selection `["Web"]`. -/
theorem C1_product_filter_reads_contact_channel_witness :
    rowWeb ∈ applyFilters [rowWeb] 0 9999999 [] ["Web"] ↔
      (rowWeb ∈ applyFilters [rowWeb] 0 9999999 [] [] ∧ rowWeb.toma ∈ ["Web"]) :=
  C1_product_filter_reads_contact_channel [rowWeb] 0 9999999 [] ["Web"]
    (by decide) rowWeb

/-- C2 counterexample: a table containing a row whose creation
timestamp does not parse makes `load_data` return no table at all,
although the same table without that row cleans successfully — the
failure is terminal, the row is not merely excluded. -/
theorem C2_counterexample :
    load_data [rawWeb, rawBad] = none ∧ (load_data [rawWeb]).isSome = true := by
  decide

/-- C2 amended: a (non-blank-channel) row whose creation timestamp
fails to parse aborts the whole load — `load_data` returns `none`, no
per-row exclusion happens; a conversion-timestamp parse failure still
degrades to absent on that row alone. -/
theorem C2_creation_parse_failure_is_terminal
    (raws : List RawRow) (r : RawRow)
    (hr : r ∈ dropBlankToma raws)
    (hbad : r.fechaCreacion = some (none : Option Timestamp))
    (q : RawRow) (hq : q.fechaConversion = some (none : Option Timestamp)) :
    load_data raws = none ∧ (parseRow q).fechaConversion = none := by
  constructor
  · have hc : ¬ creacionParses (dropBlankToma raws) = true := by
      intro hall
      have h2 := List.all_eq_true.mp hall r hr
      rw [decide_eq_true_eq] at h2
      exact h2 hbad
    simp only [load_data, if_neg hc]
  · simp [parseRow, hq]

/-- Witness for C2 amended: the bad-creation row aborts the load, the
bad-conversion cell degrades to absent. -/
theorem C2_creation_parse_failure_is_terminal_witness :
    load_data [rawBad] = none ∧ (parseRow rawBadConv).fechaConversion = none :=
  C2_creation_parse_failure_is_terminal [rawBad] rawBad (by decide) (by decide)
    rawBadConv (by decide)

/-- C3 counterexample: on the empty filtered view (record count 0) the
headline conversion rate is the numeric value `0`, not an undefined
marker. -/
theorem C3_counterexample :
    totalRegistros ([] : List CanonRow) = 0 ∧ tasaConversion [] = 0 := by
  constructor
  · rfl
  · simp [tasaConversion]

/-- C3 amended: an aggregation-table group with record count 0 has an
undefined (`NaN`, here `none`) conversion rate and nothing raises, but
the headline conversion-rate scalar is the numeric value `0` (not an
undefined marker) when the filtered record count is 0. -/
theorem C3_zero_count_rate
    (a : AggRow) (rows : List CanonRow)
    (h1 : a.count = 0) (h2 : rows.length = 0) :
    tasa a = none ∧ tasaConversion rows = 0 := by
  constructor
  · simp [tasa, h1]
  · simp [tasaConversion, h2]

/-- Witness for C3 amended at an empty weekday group and the empty
view. -/
theorem C3_zero_count_rate_witness :
    tasa ⟨"Monday", 0, 0⟩ = none ∧ tasaConversion [] = 0 :=
  C3_zero_count_rate ⟨"Monday", 0, 0⟩ [] rfl rfl

/-- C4: every row of the cleaned table has `Convertido` true exactly
when its `Producto` cell is present. -/
theorem C4_converted_iff_product_present
    (raws : List RawRow) (out : List CanonRow) (r : CanonRow)
    (h : load_data raws = some out) (hr : r ∈ out) :
    r.convertido = r.producto.isSome := by
  rcases mem_load_data h hr with ⟨p, _, _, hf⟩
  exact (finalize_fields hf).1

/-- Witness for C4 on a one-row table with a present product. -/
theorem C4_converted_iff_product_present_witness :
    rowWebA.convertido = rowWebA.producto.isSome :=
  C4_converted_iff_product_present [rawWeb] [rowWebA] rowWebA (by decide)
    (by decide)

/-- C5 counterexample: for the cleaned row of `rawEarlyConv` (creation
2019-01-01 10:00, conversion 2019-01-01 00:00) the true absolute
difference is ten hours, i.e. 0 whole days, but the code stores 1: the
absolute value is applied after flooring the signed difference to whole
days, not before. -/
theorem C5_counterexample :
    load_data [rawEarlyConv] = some [rowEarlyConv] ∧
    rowEarlyConv.diasHastaConversion = some 1 ∧
    specDiasHastaConversion rowEarlyConv = some 0 := by
  decide

/-- C5 amended: for every cleaned row, `Dias_Hasta_Conversion` is the
absolute value of the whole-day floor of (conversion − creation) —
absent exactly when the conversion date is absent, and non-negative
whenever defined.  (When the conversion precedes the creation by a
non-integral number of days this exceeds the floored true absolute
difference by one.) -/
theorem C5_days_to_conversion
    (raws : List RawRow) (out : List CanonRow) (r : CanonRow)
    (h : load_data raws = some out) (hr : r ∈ out)
    (d : Int) (hd : r.diasHastaConversion = some d) :
    r.diasHastaConversion = r.fechaConversion.map
      (fun c => |Int.fdiv (toMin c - toMin r.fechaCreacion) 1440|) ∧
    (r.fechaConversion = none → r.diasHastaConversion = none) ∧
    0 ≤ d := by
  rcases mem_load_data h hr with ⟨p, _, _, hf⟩
  have h3 := (finalize_fields hf).2.2.1
  refine ⟨h3, ?_, ?_⟩
  · intro hc
    rw [h3, hc]
    rfl
  · rw [h3] at hd
    cases hcv : r.fechaConversion with
    | none => rw [hcv] at hd; simp at hd
    | some c =>
        rw [hcv] at hd
        have h4 : |Int.fdiv (toMin c - toMin r.fechaCreacion) 1440| = d := by
          simpa using hd
        rw [← h4]
        exact abs_nonneg _

/-- Witness for C5 amended at the early-conversion sample row. -/
theorem C5_days_to_conversion_witness :
    rowEarlyConv.diasHastaConversion = rowEarlyConv.fechaConversion.map
      (fun c => |Int.fdiv (toMin c - toMin rowEarlyConv.fechaCreacion) 1440|) ∧
    (rowEarlyConv.fechaConversion = none →
      rowEarlyConv.diasHastaConversion = none) ∧
    (0 : Int) ≤ 1 :=
  C5_days_to_conversion [rawEarlyConv] [rowEarlyConv] rowEarlyConv (by decide)
    (by decide) 1 (by decide)

/-- C6: every row of the cleaned table has a creation year within 2018
to 2021 inclusive. -/
theorem C6_creation_year_in_range
    (raws : List RawRow) (out : List CanonRow) (r : CanonRow)
    (h : load_data raws = some out) (hr : r ∈ out) :
    2018 ≤ r.fechaCreacion.year ∧ r.fechaCreacion.year ≤ 2021 := by
  rcases mem_load_data h hr with ⟨p, _, hy, hf⟩
  have hpc := (finalize_fields hf).2.2.2
  rw [yearOk, hpc] at hy
  simp only [Bool.and_eq_true, decide_eq_true_eq] at hy
  exact hy

/-- Witness for C6 on a one-row table created in 2019. -/
theorem C6_creation_year_in_range_witness :
    2018 ≤ rowWebA.fechaCreacion.year ∧ rowWebA.fechaCreacion.year ≤ 2021 :=
  C6_creation_year_in_range [rawWeb] [rowWebA] rowWebA (by decide) (by decide)

theorem diaSemanaData_keys (rows : List CanonRow) :
    (diaSemanaData rows).map (fun a => a.key) = ordenDias :=
  rfl

/-- C7: the weekday aggregation table lists its rows in the fixed order
Monday through Sunday, and the whole table is invariant under
reordering of the input rows. -/
theorem C7_weekday_order_fixed
    (rows rows2 : List CanonRow) (h : rows.Perm rows2) :
    (diaSemanaData rows).map (fun a => a.key) = ordenDias ∧
    diaSemanaData rows = diaSemanaData rows2 := by
  refine ⟨diaSemanaData_keys rows, ?_⟩
  unfold diaSemanaData
  apply List.map_congr_left
  intro d _
  have hp := h.filter (fun r => dayName r.fechaCreacion = d)
  have hq := hp.filter (fun r => r.convertido)
  rw [AggRow.mk.injEq]
  exact ⟨rfl, hp.length_eq, hq.length_eq⟩

/-- Witness for C7 at a two-row view and its reversal. -/
theorem C7_weekday_order_fixed_witness :
    (diaSemanaData [rowWeb, rowWebA]).map (fun a => a.key) = ordenDias ∧
    diaSemanaData [rowWeb, rowWebA] = diaSemanaData [rowWebA, rowWeb] :=
  C7_weekday_order_fixed [rowWeb, rowWebA] [rowWebA, rowWeb] (by decide)

/-- C10: for every filtered view the weekday aggregation has exactly
seven rows, one per weekday in the fixed Monday-Sunday order, and a row
whose weekday matched no record has count 0, converted count 0 and an
undefined conversion rate (no exception anywhere). -/
theorem C10_weekday_agg_covers_empty_days
    (rows : List CanonRow) (a : AggRow)
    (ha : a ∈ diaSemanaData rows) (h0 : a.count = 0) :
    (diaSemanaData rows).length = 7 ∧
    (diaSemanaData rows).map (fun x => x.key) = ordenDias ∧
    a.ventas = 0 ∧ tasa a = none := by
  refine ⟨?_, diaSemanaData_keys rows, ?_, ?_⟩
  · simp [diaSemanaData, ordenDias]
  · rcases List.mem_map.mp ha with ⟨d, _, hmk⟩
    have hv : a.ventas ≤ a.count := by
      rw [← hmk]
      exact List.length_filter_le _ _
    omega
  · simp [tasa, h0]

/-- Witness for C10 at the empty filtered view and its Monday row. -/
theorem C10_weekday_agg_covers_empty_days_witness :
    (diaSemanaData []).length = 7 ∧
    (diaSemanaData []).map (fun x => x.key) = ordenDias ∧
    (⟨"Monday", 0, 0⟩ : AggRow).ventas = 0 ∧ tasa ⟨"Monday", 0, 0⟩ = none :=
  C10_weekday_agg_covers_empty_days [] ⟨"Monday", 0, 0⟩ (by decide) rfl

/-- C8: the group counts of the contact-channel table partition the
filtered view, and the group counts of the product table partition its
converted rows (given the canonical invariant that converted rows have
a present product). -/
theorem C8_counts_partition (rows : List CanonRow)
    (h : ∀ r ∈ rows, r.convertido = true → r.producto.isSome = true) :
    ((contactoData rows).map (fun a => a.count)).sum = totalRegistros rows ∧
    ((productoData rows).map (fun a => a.count)).sum = totalVentas rows := by
  constructor
  · have hnd : (sortLe strLe ((rows.map (fun r => r.toma)).dedup)).Nodup :=
      ((sortLe_perm strLe _).nodup_iff).mpr (List.nodup_dedup _)
    have hcov : ∀ x ∈ rows,
        x.toma ∈ sortLe strLe ((rows.map (fun r => r.toma)).dedup) := by
      intro x hx
      exact mem_sortLe.mpr (List.mem_dedup.mpr (List.mem_map_of_mem _ hx))
    have hpart := partition_sum (fun r => r.toma) rows _ hnd hcov
    have hperm :=
      (((sortLe_perm ventasDescLe (groupAgg (fun r => r.toma) rows)).map
        (fun a => a.count)).sum_eq)
    calc ((contactoData rows).map (fun a => a.count)).sum
        = ((groupAgg (fun r => r.toma) rows).map (fun a => a.count)).sum := hperm
      _ = rows.length := by rw [groupAgg, List.map_map]; exact hpart
  · have hndP : (sortLe strLe
        (((rows.filter (fun r => r.convertido)).filterMap
          (fun r => r.producto)).dedup)).Nodup :=
      ((sortLe_perm strLe _).nodup_iff).mpr (List.nodup_dedup _)
    have hnd2 : ((sortLe strLe
        (((rows.filter (fun r => r.convertido)).filterMap
          (fun r => r.producto)).dedup)).map some).Nodup :=
      hndP.map (Option.some_injective String)
    have hcov2 : ∀ x ∈ rows.filter (fun r => r.convertido),
        x.producto ∈ (sortLe strLe
          (((rows.filter (fun r => r.convertido)).filterMap
            (fun r => r.producto)).dedup)).map some := by
      intro x hx
      rcases List.mem_filter.mp hx with ⟨hxr, hxc⟩
      rcases Option.isSome_iff_exists.mp (h x hxr hxc) with ⟨v, hv⟩
      rw [hv]
      apply List.mem_map_of_mem
      apply mem_sortLe.mpr
      apply List.mem_dedup.mpr
      exact List.mem_filterMap.mpr ⟨x, hx, hv⟩
    have hpart := partition_sum (fun r => r.producto)
      (rows.filter (fun r => r.convertido)) _ hnd2 hcov2
    have hperm :=
      (((sortLe_perm ventasDescLe (productoGroups rows)).map
        (fun a => a.count)).sum_eq)
    calc ((productoData rows).map (fun a => a.count)).sum
        = ((productoGroups rows).map (fun a => a.count)).sum := hperm
      _ = (rows.filter (fun r => r.convertido)).length := by
          rw [productoGroups, List.map_map]
          rw [List.map_map] at hpart
          exact hpart

/-- Witness for C8 on a two-row view with one converted row. -/
theorem C8_counts_partition_witness :
    ((contactoData [rowWeb, rowWebA]).map (fun a => a.count)).sum =
      totalRegistros [rowWeb, rowWebA] ∧
    ((productoData [rowWeb, rowWebA]).map (fun a => a.count)).sum =
      totalVentas [rowWeb, rowWebA] :=
  C8_counts_partition [rowWeb, rowWebA] (by decide)

end Ventas
